import Mathlib

/-!
Verification of the collaborative code editor server (server.js).

The definitions below are a shallow embedding of the server's data model and
operations: the room registry, the per-room virtual file tree with its
path-walking helpers (getFileFromPath, setFileAtPath, deleteFileAtPath), the
language catalog (languageConfigs, getLanguageFromExtension) and the code
execution pipeline (the execute route dispatcher, the timeout handler and
executeCompiledLanguage).  JavaScript objects used as string-keyed maps are
modelled as association lists; a JavaScript value that may be undefined is
modelled as an Option.
-/

set_option autoImplicit false

/-- Lookup in a string-keyed association list, modelling JavaScript property
access on an object used as a map. -/
def alookup {α : Type} : List (String × α) → String → Option α
  | [], _ => none
  | (k, v) :: rest, key => if k = key then some v else alookup rest key

/-- Insert or replace a binding, modelling a JavaScript property assignment. -/
def aset {α : Type} : List (String × α) → String → α → List (String × α)
  | [], key, v => [(key, v)]
  | (k, w) :: rest, key, v =>
      if k = key then (key, v) :: rest else (k, w) :: aset rest key v

/-- Remove a binding, modelling the JavaScript delete operator on a map key. -/
def aerase {α : Type} : List (String × α) → String → List (String × α)
  | [], _ => []
  | (k, v) :: rest, key =>
      if k = key then aerase rest key else (k, v) :: aerase rest key

/-- JavaScript coerces a possibly-undefined value to a string (as a template
interpolation or as a property key): undefined becomes the string
7b undefined 7d, written here as the literal text "undefined". -/
def jsStr : Option String → String
  | none => "undefined"
  | some s => s

/-- Node of the virtual file tree.  A file object in server.js carries name,
an optional path field and content; a directory carries name, an optional
path field and a children map (the seeded root and auto-vivified directories
have no path field, nodes made by create-file do).  The createdAt field is
dropped: no claim mentions time. -/
inductive Node : Type where
  | file (name : String) (path : Option String) (content : String)
  | dir (name : String) (path : Option String) (children : List (String × Node))

/-- Split of a character list at every occurrence of a separator character,
keeping empty groups, exactly as the JavaScript String.split with a
one-character separator does. -/
def splitOnChar (sep : Char) : List Char → List (List Char)
  | [] => [[]]
  | c :: rest =>
      let r := splitOnChar sep rest
      if c = sep then [] :: r
      else
        match r with
        | [] => [[c]]
        | g :: gs => (c :: g) :: gs

/-- JavaScript s.split('/'), producing a nonempty list of segments. -/
def jsSplit (s : String) (sep : Char) : List String :=
  (splitOnChar sep s.toList).map (fun cs => String.mk cs)

/-- ASCII lowercasing of a string, modelling toLowerCase on the extension
strings the server compares (all ASCII). -/
def toLowerStr (s : String) : String :=
  String.mk (s.toList.map Char.toLower)

/-- Path splitting used by getFileFromPath, setFileAtPath and deleteFileAtPath:
filePath.split('/').filter(part => part !== ''). -/
def splitPath (p : String) : List String :=
  (jsSplit p '/').filter (fun s => s ≠ "")

/-- Walk of getFileFromPath (server.js lines 379-392): descend through the
children maps; a missing child or an attempt to descend through a file (which
has no children field) yields null. -/
def resolveAt : Node → List String → Option Node
  | n, [] => some n
  | n, part :: rest =>
      match n with
      | .dir _ _ cs =>
          match alookup cs part with
          | some c => resolveAt c rest
          | none => none
      | .file _ _ _ => none

/-- getFileFromPath(files, filePath): resolve a slash-delimited path against
the root node. -/
def getFileFromPath (root : Node) (filePath : String) : Option Node :=
  resolveAt root (splitPath filePath)

/-- Child lookup on a single node; none on a file (no children field). -/
def childOf (n : Node) (key : String) : Option Node :=
  match n with
  | .dir _ _ cs => alookup cs key
  | .file _ _ _ => none

/-- Kind test: true exactly on directory nodes. -/
def isDir : Node → Bool
  | .dir _ _ _ => true
  | .file _ _ _ => false

/-- Core of deleteFileAtPath (server.js lines 417-440): navigate the parent
segments through the children maps and delete the terminal key.  Navigation
through a missing child or through a file returns false; so does a missing
terminal key.  The functional rebuild of the spine stands for the in-place
mutation of the walked nodes. -/
def deleteAt : Node → List String → String → Bool × Node
  | n, [], key =>
      match n with
      | .dir nm pth cs =>
          match alookup cs key with
          | some _ => (true, .dir nm pth (aerase cs key))
          | none => (false, .dir nm pth cs)
      | .file a b c => (false, .file a b c)
  | n, part :: rest, key =>
      match n with
      | .dir nm pth cs =>
          match alookup cs part with
          | some c =>
              let r := deleteAt c rest key
              (r.1, .dir nm pth (aset cs part r.2))
          | none => (false, .dir nm pth cs)
      | .file a b c => (false, .file a b c)

/-- deleteFileAtPath(files, filePath).  The terminal key is parts.pop(),
which is undefined when the normalized path is empty (for example for the
root path), and JavaScript then coerces the undefined property key to the
string "undefined": jsStr models that coercion. -/
def deleteFileAtPath (root : Node) (filePath : String) : Bool × Node :=
  let parts := splitPath filePath
  deleteAt root parts.dropLast (jsStr parts.getLast?)

/-- Core of setFileAtPath (server.js lines 395-415): walk the parent
segments, auto-vivifying a missing child as a directory with an empty
children map (and no path field), then assign the terminal key.  Reading the
children field of a file throws a TypeError in JavaScript; the Bool result is
false when that throw happens, and the returned node keeps the vivifications
already performed before the throw. -/
def setAt : Node → List String → String → Node → Node × Bool
  | n, [], key, fd =>
      match n with
      | .dir nm pth cs => (.dir nm pth (aset cs key fd), true)
      | .file a b c => (.file a b c, false)
  | n, part :: rest, key, fd =>
      match n with
      | .dir nm pth cs =>
          let child := (alookup cs part).getD (.dir part none [])
          let cs1 := aset cs part child
          let r := setAt child rest key fd
          (.dir nm pth (aset cs1 part r.1), r.2)
      | .file a b c => (.file a b c, false)

/-- setFileAtPath(files, filePath, fileData); the terminal key undergoes the
same undefined-to-"undefined" coercion as in deleteFileAtPath. -/
def setFileAtPath (root : Node) (filePath : String) (fd : Node) : Node × Bool :=
  let parts := splitPath filePath
  setAt root parts.dropLast (jsStr parts.getLast?) fd

/-- File-creation part of the create-file socket handler (server.js lines
501-526) for kind file: fileName is filePath.split('/').pop() (unfiltered
split, never an empty array), the file object records name, path and content,
and setFileAtPath installs it. -/
def createFile (root : Node) (filePath content : String) : Node :=
  let fileName := ((jsSplit filePath '/').getLast?).getD ""
  let fd := Node.file fileName (some filePath) content
  (setFileAtPath root filePath fd).1

/-- Spread copy made by the rename-file handler: the node with name and path
fields replaced, content or children kept. -/
def withNamePath : Node → String → String → Node
  | .file _ _ content, newName, newPath => .file newName (some newPath) content
  | .dir _ _ children, newName, newPath => .dir newName (some newPath) children

/-- rename-file socket handler (server.js lines 538-553): resolve oldPath
(silent no-op when missing), build the renamed copy with
newPath.split('/').pop() as its name, then deleteFileAtPath(oldPath) followed
by setFileAtPath(newPath).  When setFileAtPath throws, the tree keeps the
state it had after the delete and the partial vivifications. -/
def renameFile (root : Node) (oldPath newPath : String) : Node :=
  match getFileFromPath root oldPath with
  | none => root
  | some f =>
      let newName := ((jsSplit newPath '/').getLast?).getD ""
      let nf := withNamePath f newName newPath
      let r1 := (deleteFileAtPath root oldPath).2
      (setFileAtPath r1 newPath nf).1

/-- Content of the seeded /main.js file. -/
def mainJsContent : String :=
  "// Welcome to the collaborative code editor!\nconsole.log(\"Hello, World!\");"

/-- Content of the seeded /example.py file. -/
def examplePyContent : String :=
  "# Python example\nprint(\"Hello from Python!\")"

/-- Children of the seeded root directory: exactly main.js and example.py. -/
def initChildren : List (String × Node) :=
  [("main.js", Node.file "main.js" (some "/main.js") mainJsContent),
   ("example.py", Node.file "example.py" (some "/example.py") examplePyContent)]

/-- Tree stored in roomFiles by the room-creation route (server.js lines
97-116): a root directory named "/" holding the two starter files. -/
def initRoomFiles : Node :=
  Node.dir "/" none initChildren

/-- Names of the root's immediate children. -/
def childNames : Node → List String
  | .dir _ _ cs => cs.map Prod.fst
  | .file _ _ _ => []

/-- Roster entry pushed by the join-room handler: socket id and display name
(the joinedAt timestamp is dropped: no claim mentions time). -/
structure RoomUser : Type where
  id : String
  name : String

/-- Room object stored in the rooms map: id and user roster (createdAt
dropped). -/
structure Room : Type where
  id : String
  users : List RoomUser

/-- In-memory server state: the rooms map and the roomFiles map (server.js
lines 30-31). -/
structure ServerState : Type where
  rooms : List (String × Room)
  roomFiles : List (String × Node)

/-- Room-creation route (server.js lines 88-119): store a fresh room with an
empty roster under the generated id and seed its file tree with
initRoomFiles. -/
def createRoom (st : ServerState) (roomId : String) : ServerState :=
  ⟨aset st.rooms roomId ⟨roomId, []⟩, aset st.roomFiles roomId initRoomFiles⟩

/-- Exists flag of the room-validation route (server.js lines 122-130): true
exactly when the rooms map has the id. -/
def getRoomExists (st : ServerState) (roomId : String) : Bool :=
  (alookup st.rooms roomId).isSome

/-- Disconnect handler (server.js lines 556-576): when the socket had joined
a room that still exists, filter the departing socket id out of the roster;
if the roster became empty, delete the room and its file tree from both
maps. -/
def disconnect (st : ServerState) (socketRoomId : Option String)
    (socketId : String) : ServerState :=
  match socketRoomId with
  | none => st
  | some rid =>
      match alookup st.rooms rid with
      | none => st
      | some room =>
          let remaining := room.users.filter (fun u => u.id != socketId)
          if remaining.isEmpty then
            ⟨aerase st.rooms rid, aerase st.roomFiles rid⟩
          else
            ⟨aset st.rooms rid ⟨room.id, remaining⟩, st.roomFiles⟩

/-- Entry of the languageConfigs table.  Fields absent from a given
JavaScript config object are modelled as none (or false for the compile
flag). -/
structure LangConfig : Type where
  command : String
  args : List String
  timeoutMs : Nat
  compile : Bool
  compileCommand : Option String
  compileArgs : Option (List String)
  runCommand : Option String

/-- Language catalog (server.js lines 36-82). -/
def languageConfigs (id : String) : Option LangConfig :=
  if id = "javascript" then some ⟨"node", ["-e"], 10000, false, none, none, none⟩
  else if id = "python" then some ⟨"python3", ["-c"], 10000, false, none, none, none⟩
  else if id = "java" then some ⟨"java", [], 15000, true, some "javac", none, none⟩
  else if id = "cpp" then
    some ⟨"./temp_program", [], 15000, true, some "g++", some ["-o", "temp_program"], none⟩
  else if id = "c" then
    some ⟨"./temp_program", [], 15000, true, some "gcc", some ["-o", "temp_program"], none⟩
  else if id = "go" then some ⟨"go", ["run"], 15000, false, none, none, none⟩
  else if id = "rust" then
    some ⟨"rustc", ["--edition", "2021", "-o", "temp_program"], 20000, true, none, none,
      some "./temp_program"⟩
  else none

/-- Catalog lookup through a possibly-undefined language id:
languageConfigs[undefined] is undefined. -/
def languageConfigsOpt : Option String → Option LangConfig
  | none => none
  | some id => languageConfigs id

/-- Compile flag of a catalog entry, false when the id has no entry. -/
def compileModeOf (id : String) : Bool :=
  match languageConfigs id with
  | some c => c.compile
  | none => false

/-- Timeout of a catalog entry in milliseconds, 0 when the id has no entry. -/
def timeoutOf (id : String) : Nat :=
  match languageConfigs id with
  | some c => c.timeoutMs
  | none => 0

/-- Suffix of a character list starting at its last dot, if any. -/
def lastDotSuffix : List Char → Option (List Char)
  | [] => none
  | c :: rest =>
      match lastDotSuffix rest with
      | some s => some s
      | none => if c = '.' then some (c :: rest) else none

/-- Model of path.extname: the extension of the basename from its last dot;
empty when the basename has no dot past its first character (so a dotfile
such as .py has no extension).  The degenerate all-dots basenames differ
harmlessly from Node's treatment; no claim depends on them. -/
def extname (p : String) : String :=
  let base := ((jsSplit p '/').getLast?).getD ""
  match base.toList with
  | [] => ""
  | _ :: rest =>
      match lastDotSuffix rest with
      | some s => String.mk s
      | none => ""

/-- Extension-to-language map of getLanguageFromExtension with its
or-javascript fallback (server.js lines 155-170). -/
def languageMapLookup (e : String) : String :=
  if e = ".js" then "javascript"
  else if e = ".jsx" then "javascript"
  else if e = ".py" then "python"
  else if e = ".java" then "java"
  else if e = ".cpp" then "cpp"
  else if e = ".cxx" then "cpp"
  else if e = ".cc" then "cpp"
  else if e = ".c" then "c"
  else if e = ".go" then "go"
  else if e = ".rs" then "rust"
  else "javascript"

/-- getLanguageFromExtension(filename): look the lowercased extension up in
the extension map, defaulting to javascript. -/
def getLanguageFromExtension (filename : String) : String :=
  languageMapLookup (toLowerStr (extname filename))

/-- Language resolution of the execute route (server.js line 179):
filename ? getLanguageFromExtension(filename) : language.  A missing
filename and the empty string are both falsy. -/
def detectedLanguage (filename language : Option String) : Option String :=
  match filename with
  | some f => if f = "" then language else some (getLanguageFromExtension f)
  | none => language

/-- Result object sent back by the execute route.  Fields the JavaScript
object omits are modelled as none. -/
structure ExecutionResult : Type where
  output : String
  error : Bool
  exitCode : Option Int
  language : Option String

/-- Outcome of the execute route's dispatch (server.js lines 172-229): a 404
for an unknown room, an immediate unsupported-language result, or the launch
of the compiled or the interpreted pipeline.  Only the last two constructors
spawn a process. -/
inductive ExecOutcome : Type where
  | roomNotFound
  | unsupported (result : ExecutionResult)
  | interpreted (languageId : Option String) (config : LangConfig)
  | compiled (languageId : Option String) (config : LangConfig)

/-- Dispatch of the execute route: room check, language resolution, catalog
lookup, branch on the compile flag. -/
def executeRoute (roomExists : Bool) (filename language : Option String) :
    ExecOutcome :=
  if roomExists then
    let detected := detectedLanguage filename language
    match languageConfigsOpt detected with
    | none =>
        ExecOutcome.unsupported
          ⟨"Unsupported language: " ++ jsStr detected ++
            ". Supported languages: javascript, python, java, cpp, c, go, rust",
           true, none, none⟩
    | some config =>
        if config.compile then ExecOutcome.compiled detected config
        else ExecOutcome.interpreted detected config
  else ExecOutcome.roomNotFound

/-- Assignment of the child variable in the execute route: the interpreted
branch (server.js lines 225 and 228) stores the spawned process in child,
while the compiled branch goes through executeCompiledLanguage, whose
compileProcess and runProcess stay in local variables, leaving child
undefined. -/
def childVar (compileMode : Bool) (pid : Nat) : Option Nat :=
  if compileMode then none else some pid

/-- Timeout callback (server.js lines 193-201): kill the process stored in
child if any, and answer with the output captured so far suffixed by the
timeout notice, error flag true.  The running list stands for the child
processes of the server that are still alive; child.kill() removes the
killed pid from it. -/
def timeoutHandler (child : Option Nat) (running : List Nat) (output : String)
    (timeoutMs : Nat) : List Nat × ExecutionResult :=
  let running2 :=
    match child with
    | some pid => running.filter (fun p => p != pid)
    | none => running
  (running2,
   ⟨output ++ "\n[Execution timed out after " ++ toString (timeoutMs / 1000) ++
      " seconds]", true, none, none⟩)

/-- Captured streams and close code of one spawned process; the close code is
none when the process was terminated by a signal (JavaScript null). -/
structure ProcOutcome : Type where
  out : String
  err : String
  exitCode : Option Int

/-- Temporary source file chosen by the switch in executeCompiledLanguage
(server.js lines 275-296); the timestamp is Date.now().  For ids outside the
switch the variable stays undefined, coerced later to "undefined". -/
def sourceFileFor (language : String) (timestamp : Nat) : String :=
  if language = "java" then "/tmp/TempClass" ++ toString timestamp ++ ".java"
  else if language = "cpp" then "/tmp/temp" ++ toString timestamp ++ ".cpp"
  else if language = "c" then "/tmp/temp" ++ toString timestamp ++ ".c"
  else if language = "rust" then "/tmp/temp" ++ toString timestamp ++ ".rs"
  else "undefined"

/-- executeCompiledLanguage (server.js lines 268-376), abstracted over the
outcomes of the compile and run processes.  Returned alongside the result
are whether the run process was spawned and the temporary files of this
request still on disk when the callback fires: the compile-failure branch
(lines 320-329) invokes the callback and returns before any cleanup, so the
source file remains; the run close handler (lines 355-366) unlinks the
source, the executable and the Java class file. -/
def executeCompiledLanguage (language : String) (timestamp : Nat)
    (compileOutcome runOutcome : ProcOutcome) :
    ExecutionResult × Bool × List String :=
  let sourceFile := sourceFileFor language timestamp
  if compileOutcome.exitCode ≠ some 0 then
    (⟨"Compilation failed:\n" ++ compileOutcome.err, true,
       compileOutcome.exitCode, none⟩, false, [sourceFile])
  else
    let finalOutput :=
      runOutcome.out ++
        (if runOutcome.err ≠ "" then "\nError: " ++ runOutcome.err else "")
    (⟨finalOutput, runOutcome.exitCode ≠ some 0, runOutcome.exitCode, none⟩,
     true, [])

/-- Temporary files written by the interpreted branch of the execute route
before spawning (server.js lines 221-229): only Go writes one. -/
def goTempFiles (language : String) (timestamp : Nat) : List String :=
  if language = "go" then ["temp_" ++ toString timestamp ++ ".go"] else []

/-- Close handler of the interpreted branch (server.js lines 239-256): build
the final output, answer with error true exactly when the exit code is not
zero.  The handler contains no unlink call, so every temporary file written
for the request is still on disk afterwards: the second component returns
them unchanged. -/
def interpretedClose (tempFiles : List String) (output errorOutput : String)
    (exitCode : Option Int) (language : String) :
    ExecutionResult × List String :=
  (⟨output ++ (if errorOutput ≠ "" then "\nError: " ++ errorOutput else ""),
     exitCode ≠ some 0, exitCode, some language⟩, tempFiles)

/-- Looking a key up right after setting it yields the set value. -/
theorem alookup_aset_self {α : Type} (l : List (String × α)) (k : String)
    (v : α) : alookup (aset l k v) k = some v := by
  induction l with
  | nil => simp [aset, alookup]
  | cons e rest ih =>
      obtain ⟨k1, w⟩ := e
      by_cases h : k1 = k
      · simp [aset, h, alookup]
      · simp [aset, h, alookup, ih]

/-- Looking a key up right after erasing it yields nothing. -/
theorem alookup_aerase_self {α : Type} (l : List (String × α)) (k : String) :
    alookup (aerase l k) k = none := by
  induction l with
  | nil => simp [aerase, alookup]
  | cons e rest ih =>
      obtain ⟨k1, w⟩ := e
      by_cases h : k1 = k
      · simp [aerase, h, alookup, ih]
      · simp [aerase, h, alookup, ih]

/-- Setting a key to the value it already has leaves the map unchanged. -/
theorem aset_eq_of_alookup {α : Type} (l : List (String × α)) (k : String)
    (v : α) (h : alookup l k = some v) : aset l k v = l := by
  induction l with
  | nil => simp [alookup] at h
  | cons e rest ih =>
      obtain ⟨k1, w⟩ := e
      by_cases hk : k1 = k
      · subst hk
        simp [alookup] at h
        simp [aset, h]
      · simp [alookup, hk] at h
        simp [aset, hk, ih h]

/-- Resolution distributes over path concatenation. -/
theorem resolveAt_append (n : Node) (ps qs : List String) :
    resolveAt n (ps ++ qs) = (resolveAt n ps).bind (fun m => resolveAt m qs) := by
  induction ps generalizing n with
  | nil => simp [resolveAt]
  | cons p rest ih =>
      cases n with
      | file a b c => simp [resolveAt]
      | dir nm pth cs =>
          cases h : alookup cs p with
          | none => simp [resolveAt, h]
          | some c => simp [resolveAt, h, ih]

/-- Resolving a one-segment path is a child lookup. -/
theorem resolveAt_singleton (m : Node) (k : String) :
    resolveAt m [k] = childOf m k := by
  cases m with
  | file a b c => rfl
  | dir nm pth cs => cases h : alookup cs k <;> simp [resolveAt, childOf, h]

/-- The boolean returned by deleteAt says exactly whether the parent path
resolved to a directory holding the terminal key. -/
theorem deleteAt_fst (n : Node) (ps : List String) (key : String) :
    (deleteAt n ps key).1 =
      ((resolveAt n ps).bind (fun m => childOf m key)).isSome := by
  induction ps generalizing n with
  | nil =>
      cases n with
      | file a b c => simp [deleteAt, resolveAt, childOf]
      | dir nm pth cs =>
          cases h : alookup cs key <;> simp [deleteAt, resolveAt, childOf, h]
  | cons p rest ih =>
      cases n with
      | file a b c => simp [deleteAt, resolveAt]
      | dir nm pth cs =>
          cases h : alookup cs p with
          | none => simp [deleteAt, resolveAt, h]
          | some c => simp [deleteAt, resolveAt, h, ih]

/-- A failed deleteAt hands the tree back unchanged. -/
theorem deleteAt_snd_of_false (n : Node) (ps : List String) (key : String)
    (h : (deleteAt n ps key).1 = false) : (deleteAt n ps key).2 = n := by
  induction ps generalizing n with
  | nil =>
      cases n with
      | file a b c => simp [deleteAt]
      | dir nm pth cs =>
          cases hl : alookup cs key with
          | some v => simp [deleteAt, hl] at h
          | none => simp [deleteAt, hl]
  | cons p rest ih =>
      cases n with
      | file a b c => simp [deleteAt]
      | dir nm pth cs =>
          cases hl : alookup cs p with
          | none => simp [deleteAt, hl]
          | some c =>
              have h1 : (deleteAt c rest key).1 = false := by
                simpa [deleteAt, hl] using h
              simp [deleteAt, hl, ih c h1, aset_eq_of_alookup cs p c hl]

/-- setAt keeps a directory at the top of the tree. -/
theorem isDir_setAt_fst (n : Node) (ps : List String) (key : String)
    (fd : Node) (h : isDir n = true) : isDir (setAt n ps key fd).1 = true := by
  cases ps with
  | nil =>
      cases n with
      | file a b c => simp [isDir] at h
      | dir nm pth cs => simp [setAt, isDir]
  | cons p rest =>
      cases n with
      | file a b c => simp [isDir] at h
      | dir nm pth cs => simp [setAt, isDir]

/-- C8: removing a nonexistent path from the tree returns false and never
alters the tree; removing the same nonexistent path twice returns false both
times and the tree after each call equals the tree before it. -/
theorem c8_remove_nonexistent_noop (root : Node) (p : String)
    (h : getFileFromPath root p = none) :
    deleteFileAtPath root p = (false, root) ∧
    deleteFileAtPath (deleteFileAtPath root p).2 p = (false, root) := by
  have hfst : (deleteFileAtPath root p).1 = false := by
    rcases hsp : splitPath p with _ | ⟨a, rest⟩
    · exfalso
      rw [getFileFromPath, hsp] at h
      simp [resolveAt] at h
    · have hne : a :: rest ≠ ([] : List String) := by simp
      have hd : (a :: rest).dropLast ++ [(a :: rest).getLast hne] = a :: rest :=
        List.dropLast_append_getLast hne
      have hl : (a :: rest).getLast? = some ((a :: rest).getLast hne) :=
        List.getLast?_eq_getLast_of_ne_nil hne
      rw [getFileFromPath, hsp, ← hd, resolveAt_append] at h
      show (deleteAt root (splitPath p).dropLast (jsStr (splitPath p).getLast?)).1
             = false
      rw [hsp, hl, deleteAt_fst]
      cases hr : resolveAt root (a :: rest).dropLast with
      | none => simp [hr]
      | some m =>
          rw [hr] at h
          simp only [Option.some_bind] at h
          rw [resolveAt_singleton] at h
          simp [hr, jsStr, h]
  have hsnd : (deleteFileAtPath root p).2 = root :=
    deleteAt_snd_of_false root (splitPath p).dropLast
      (jsStr (splitPath p).getLast?) hfst
  have heq : deleteFileAtPath root p = (false, root) := by
    rw [Prod.ext_iff]
    exact ⟨hfst, hsnd⟩
  refine ⟨heq, ?_⟩
  rw [heq]
  exact heq

/-- C8 witness: deleting the absent path /missing.txt from a freshly seeded
tree fails twice without changing the tree. -/
theorem c8_witness :
    deleteFileAtPath initRoomFiles "/missing.txt" = (false, initRoomFiles) ∧
    deleteFileAtPath (deleteFileAtPath initRoomFiles "/missing.txt").2
        "/missing.txt" = (false, initRoomFiles) :=
  c8_remove_nonexistent_noop initRoomFiles "/missing.txt" (by rfl)

/-- C6 (amended): for every tree, the root path resolves to the root
directory and rename applied to the root path leaves the root node in place
as a directory; delete applied to the root path returns false and leaves the
tree unchanged whenever the root has no child literally named "undefined"
(the missing terminal segment is coerced by JavaScript to that property
key). -/
theorem c6_root_protected (nm : String) (pth : Option String)
    (cs : List (String × Node)) :
    getFileFromPath (Node.dir nm pth cs) "/" = some (Node.dir nm pth cs) ∧
    (alookup cs "undefined" = none →
      deleteFileAtPath (Node.dir nm pth cs) "/" = (false, Node.dir nm pth cs)) ∧
    ∀ np : String, isDir (renameFile (Node.dir nm pth cs) "/" np) = true := by
  have hsp : splitPath "/" = [] := by decide
  have hun : deleteFileAtPath (Node.dir nm pth cs) "/" =
      deleteAt (Node.dir nm pth cs) (splitPath "/").dropLast
        (jsStr (splitPath "/").getLast?) := rfl
  have hget : getFileFromPath (Node.dir nm pth cs) "/" =
      some (Node.dir nm pth cs) := by
    rw [getFileFromPath, hsp]
    rfl
  have hdir2 : isDir (deleteFileAtPath (Node.dir nm pth cs) "/").2 = true := by
    rw [hun, hsp]
    cases hl : alookup cs "undefined" <;> simp [deleteAt, jsStr, hl, isDir]
  refine ⟨hget, ?_, ?_⟩
  · intro h
    rw [hun, hsp]
    simp [deleteAt, jsStr, h]
  · intro np
    simp only [renameFile, hget, setFileAtPath]
    exact isDir_setAt_fst _ _ _ _ hdir2

/-- C6 witness: on the seeded tree, deleting the root path fails and leaves
the tree intact, and renaming the root path keeps the root a directory. -/
theorem c6_witness :
    deleteFileAtPath initRoomFiles "/" = (false, initRoomFiles) ∧
    isDir (renameFile initRoomFiles "/" "/renamed") = true :=
  ⟨(c6_root_protected "/" none initChildren).2.1 (by rfl),
   (c6_root_protected "/" none initChildren).2.2 "/renamed"⟩

/-- C6 counterexample: after the workspace operation that creates a file at
the path /undefined, delete applied to the root path returns true and removes
that child, so the claim that delete on the root always returns false and
never alters the tree fails on the code. -/
theorem c6_counterexample :
    (deleteFileAtPath (createFile initRoomFiles "/undefined" "x") "/").1 = true ∧
    (getFileFromPath (createFile initRoomFiles "/undefined" "x")
        "/undefined").isSome = true ∧
    (getFileFromPath (deleteFileAtPath (createFile initRoomFiles "/undefined" "x")
        "/").2 "/undefined").isSome = false :=
  ⟨rfl, rfl, rfl⟩

/-- C9: every call of the room-creation route stores a file tree containing
exactly the two seeded files, a file node at /main.js and a file node at
/example.py under the root directory, and no other entries. -/
theorem c9_createRoom_seeded_tree (st : ServerState) (rid : String) :
    alookup (createRoom st rid).roomFiles rid = some initRoomFiles ∧
    getFileFromPath initRoomFiles "/main.js" =
      some (Node.file "main.js" (some "/main.js") mainJsContent) ∧
    getFileFromPath initRoomFiles "/example.py" =
      some (Node.file "example.py" (some "/example.py") examplePyContent) ∧
    childNames initRoomFiles = ["main.js", "example.py"] :=
  ⟨alookup_aset_self st.roomFiles rid initRoomFiles, rfl, rfl, rfl⟩

/-- C7: when the last remaining member of a room disconnects, the room and
its file tree are deleted immediately, and a later getRoom lookup reports
that the room does not exist. -/
theorem c7_last_disconnect_deletes_room (st : ServerState)
    (rid sid unm : String) (room : Room)
    (h1 : alookup st.rooms rid = some room)
    (h2 : room.users = [⟨sid, unm⟩]) :
    getRoomExists (disconnect st (some rid) sid) rid = false ∧
    alookup (disconnect st (some rid) sid).roomFiles rid = none := by
  have hrem : room.users.filter (fun u => u.id != sid) = [] := by
    rw [h2]
    simp [List.filter]
  refine ⟨?_, ?_⟩ <;>
    simp [disconnect, h1, hrem, getRoomExists, alookup_aerase_self]

/-- C7 witness: a room whose roster is a single user vanishes from both maps
when that user disconnects. -/
theorem c7_witness :
    getRoomExists (disconnect ⟨[("r1", ⟨"r1", [⟨"s1", "alice"⟩]⟩)],
        [("r1", initRoomFiles)]⟩ (some "r1") "s1") "r1" = false ∧
    alookup (disconnect ⟨[("r1", ⟨"r1", [⟨"s1", "alice"⟩]⟩)],
        [("r1", initRoomFiles)]⟩ (some "r1") "s1").roomFiles "r1" = none :=
  c7_last_disconnect_deletes_room _ "r1" "s1" "alice"
    ⟨"r1", [⟨"s1", "alice"⟩]⟩ rfl rfl

/-- C4: when an execution request supplies a (non-empty) filename, the
language used is the one inferred from the filename's extension, whatever
explicit language id the request carries; when no filename is supplied, the
explicit language id is used. -/
theorem c4_filename_wins (f : String) (lang : Option String) :
    (f ≠ "" → detectedLanguage (some f) lang = some (getLanguageFromExtension f)) ∧
    detectedLanguage none lang = lang := by
  constructor
  · intro hf
    simp [detectedLanguage, hf]
  · rfl

/-- C4 witness: a request naming a.py runs python even though it explicitly
asked for javascript; absent a filename, the explicit id is kept. -/
theorem c4_witness :
    detectedLanguage (some "a.py") (some "javascript") = some "python" ∧
    detectedLanguage none (some "javascript") = some "javascript" :=
  ⟨((c4_filename_wins "a.py" (some "javascript")).1 (by decide)).trans (by rfl),
   (c4_filename_wins "a.py" (some "javascript")).2⟩

/-- C5: when the resolved language id has no catalog entry, the execute route
answers immediately with a structured unsupported-language result whose error
flag is true; the outcome is not one of the two process-launching
constructors. -/
theorem c5_unsupported_language_result (filename language : Option String)
    (h : languageConfigsOpt (detectedLanguage filename language) = none) :
    executeRoute true filename language =
      ExecOutcome.unsupported
        ⟨"Unsupported language: " ++ jsStr (detectedLanguage filename language) ++
           ". Supported languages: javascript, python, java, cpp, c, go, rust",
         true, none, none⟩ := by
  simp [executeRoute, h]

/-- C5 witness: a request with no filename and the unknown id cobol gets the
unsupported-language result with error true, with no process launch. -/
theorem c5_witness :
    executeRoute true none (some "cobol") =
      ExecOutcome.unsupported
        ⟨"Unsupported language: cobol. Supported languages: javascript, python, java, cpp, c, go, rust",
         true, none, none⟩ :=
  c5_unsupported_language_result none (some "cobol") rfl

/-- C10: extension-to-language inference returns javascript for every
filename whose lowercased extension is outside the known-extension map, and
in any case lands in the catalog for every filename, so the
unsupported-language outcome is reachable only for requests whose filename is
absent (or empty, which JavaScript treats as absent) and whose explicit
language id has no catalog entry. -/
theorem c10_inference_always_supported :
    (∀ f : String,
        toLowerStr (extname f) ∉
          [".js", ".jsx", ".py", ".java", ".cpp", ".cxx", ".cc", ".c",
           ".go", ".rs"] →
        getLanguageFromExtension f = "javascript") ∧
    (∀ f : String, (languageConfigs (getLanguageFromExtension f)).isSome = true) ∧
    (∀ (roomExists : Bool) (filename language : Option String)
        (r : ExecutionResult),
        executeRoute roomExists filename language = ExecOutcome.unsupported r →
        (filename = none ∨ filename = some "") ∧
          languageConfigsOpt language = none) := by
  have hfall : ∀ f : String,
      toLowerStr (extname f) ∉
        [".js", ".jsx", ".py", ".java", ".cpp", ".cxx", ".cc", ".c",
         ".go", ".rs"] →
      getLanguageFromExtension f = "javascript" := by
    intro f hf
    simp only [List.mem_cons, List.not_mem_nil, or_false, not_or] at hf
    obtain ⟨h1, h2, h3, h4, h5, h6, h7, h8, h9, h10⟩ := hf
    show languageMapLookup (toLowerStr (extname f)) = "javascript"
    simp [languageMapLookup, h1, h2, h3, h4, h5, h6, h7, h8, h9, h10]
  have hpart1 : ∀ f : String,
      (languageConfigs (getLanguageFromExtension f)).isSome = true := by
    intro f
    show (languageConfigs (languageMapLookup (toLowerStr (extname f)))).isSome = true
    generalize toLowerStr (extname f) = e
    unfold languageMapLookup
    split_ifs <;> rfl
  refine ⟨hfall, hpart1, ?_⟩
  intro roomExists filename language r hmatch
  cases roomExists with
  | false => simp [executeRoute] at hmatch
  | true =>
      cases hm : languageConfigsOpt (detectedLanguage filename language) with
      | some cfg =>
          exfalso
          simp only [executeRoute, if_true] at hmatch
          rw [hm] at hmatch
          cases hc : cfg.compile <;> simp [hc] at hmatch
      | none =>
          cases filename with
          | none =>
              exact ⟨Or.inl rfl, by simpa [detectedLanguage] using hm⟩
          | some f =>
              by_cases hf : f = ""
              · subst hf
                exact ⟨Or.inr rfl, by simpa [detectedLanguage] using hm⟩
              · exfalso
                have hsome := hpart1 f
                rw [show detectedLanguage (some f) language =
                      some (getLanguageFromExtension f) from by
                    simp [detectedLanguage, hf]] at hm
                simp only [languageConfigsOpt] at hm
                rw [hm] at hsome
                simp at hsome

/-- C10 witness: the unknown extension .txt falls back to javascript, and
the unsupported outcome for the id brainfuck indeed comes with no filename
and an id outside the catalog. -/
theorem c10_witness :
    getLanguageFromExtension "README.txt" = "javascript" ∧
    (((none : Option String) = none ∨ (none : Option String) = some "") ∧
      languageConfigsOpt (some "brainfuck") = none) :=
  ⟨c10_inference_always_supported.1 "README.txt" (by decide),
   c10_inference_always_supported.2.2 true none (some "brainfuck")
     ⟨"Unsupported language: brainfuck. Supported languages: javascript, python, java, cpp, c, go, rust",
      true, none, none⟩ rfl⟩

/-- C3: whenever the compiler exits with a status other than zero, the
compiled pipeline reports a compile-failed result with error true whose
output carries the compiler's error stream, the run process is never spawned,
and nothing of the run outcome reaches the result. -/
theorem c3_compile_failure_skips_run (language : String) (ts : Nat)
    (co ro : ProcOutcome) (h : co.exitCode ≠ some 0) :
    executeCompiledLanguage language ts co ro =
      (⟨"Compilation failed:\n" ++ co.err, true, co.exitCode, none⟩, false,
       [sourceFileFor language ts]) := by
  simp [executeCompiledLanguage, h]

/-- C3 witness: a failed C++ compile yields the compile-failed result and no
run phase, with the would-be run output nowhere in the result. -/
theorem c3_witness :
    executeCompiledLanguage "cpp" 1 ⟨"", "boom", some 1⟩ ⟨"run output", "", some 0⟩ =
      (⟨"Compilation failed:\nboom", true, some 1, none⟩, false,
       ["/tmp/temp1.cpp"]) :=
  c3_compile_failure_skips_run "cpp" 1 ⟨"", "boom", some 1⟩
    ⟨"run output", "", some 0⟩ (by decide)

/-- C2 (code bug): temporary artifacts are not always cleaned up.  A failed
C compile leaves its source file on disk because the compile-failure branch
returns before the cleanup block, and the Go temporary file survives every
run because the interpreted close handler never unlinks it; only the
compiled success path deletes its artifacts. -/
theorem c2_temp_files_left_behind :
    (executeCompiledLanguage "c" 5 ⟨"", "boom", some 1⟩ ⟨"", "", some 0⟩).2.2 =
      ["/tmp/temp5.c"] ∧
    (interpretedClose (goTempFiles "go" 7) "hi\n" "" (some 0) "go").2 =
      ["temp_7.go"] ∧
    (executeCompiledLanguage "c" 6 ⟨"", "", some 0⟩ ⟨"ok\n", "", some 0⟩).2.2 =
      ([] : List String) :=
  ⟨rfl, rfl, rfl⟩

/-- C1 (code bug): on timeout the route reports error true and the captured
output suffixed with the timeout notice, but for a compiled language the
active process survives the timeout handler, because the child variable the
handler kills is assigned only in the interpreted branch; the interpreted
case does get its process killed. -/
theorem c1_timeout_compiled_child_survives :
    (timeoutHandler (childVar (compileModeOf "c") 7) [7] "captured"
        (timeoutOf "c")).1 = [7] ∧
    (timeoutHandler (childVar (compileModeOf "c") 7) [7] "captured"
        (timeoutOf "c")).2.error = true ∧
    (timeoutHandler (childVar (compileModeOf "c") 7) [7] "captured"
        (timeoutOf "c")).2.output =
      "captured\n[Execution timed out after 15 seconds]" ∧
    (timeoutHandler (childVar (compileModeOf "python") 9) [9] "out"
        (timeoutOf "python")).1 = ([] : List Nat) :=
  ⟨rfl, rfl, rfl, rfl⟩
